import Mathlib

/-
Verification of the WWYD room-session orchestrator (src/server.ts and the
collaborators it calls) against its natural-language specification.

The socket handlers and helper functions of src/server.ts are embedded as
pure Lean functions.  Database state is passed explicitly (the single room
a handler touches), `Math.random` draws are passed as explicit parameters,
and fallible handlers return `Except`/`Option` results.  JavaScript objects
and Maps used as string-keyed dictionaries are embedded as insertion-ordered
association lists, matching the iteration order JS guarantees.
-/

namespace WWYD

/-- Game-state machine states (the `gameState.status` strings of the source). -/
inductive GStatus
  | waiting
  | categorySelection
  | questionDisplay
  | answering
  | judging
  | results
  | gameOver
deriving DecidableEq, Repr

/-- Room-level status (`room.status`: `waiting` / `playing` / `finished`). -/
inductive RoomStatus
  | waiting
  | playing
  | finished
deriving DecidableEq, Repr

/-- The five game categories of the source (`allCategories` in server.ts). -/
inductive GameCategory
  | business
  | scenario
  | wouldYouRather
  | pleadForYourLife
  | escape
deriving DecidableEq, Repr

/-- A room member (interface `Player` of server.ts). -/
structure Player where
  id : String
  nickname : String
  isHost : Bool
  isConnected : Bool
deriving DecidableEq, Repr, Inhabited

/-- The `(playerId, roomCode, nickname)` value stored in the `socketToPlayer`
connection registry for a live socket. -/
structure SocketPlayerInfo where
  playerId : String
  roomCode : String
  nickname : String
deriving DecidableEq, Repr

/-- The winners/explanation pair produced by judging
(`AIJudgingResult` / `gameState.judgingResult`). -/
structure AIJudgingResult where
  winners : List String
  explanation : String
deriving DecidableEq, Repr

/-- One `roundHistory` entry.  The entry pre-seeded by the full-coverage
`submitAnswer` path carries only question/category/answers, so the fields the
judging pass would add are `Option`s (`none` models an absent JS property). -/
structure RoundHistoryItem where
  round : Option Nat
  category : Option GameCategory
  question : Option String
  answers : List (String × String)
  winners : Option (List String)
  explanation : Option String
deriving DecidableEq, Repr

/-- The authoritative `gameState` object.  Fields that handlers create lazily
in the source (question, category, timer, judging result) are `Option`s. -/
structure GameState where
  status : GStatus
  round : Nat
  totalRounds : Nat
  categorySelector : String
  categories : List GameCategory
  currentCategory : Option GameCategory
  question : Option String
  judgingStyle : Option String
  timeRemaining : Option Nat
  answers : List (String × String)
  scores : List (String × Int)
  judgingResult : Option AIJudgingResult
  roundHistory : List (Option RoundHistoryItem)
deriving DecidableEq, Repr

/-- A stored room document. -/
structure Room where
  code : String
  status : RoomStatus
  players : List Player
  currentRound : Nat
  gameState : Option GameState
deriving DecidableEq, Repr

/-! ### Association-list helpers

JS objects and Maps keyed by player id are embedded as insertion-ordered
association lists.  `alistSet` overwrites in place when the key exists and
appends otherwise, exactly like `obj[k] = v` / `map.set(k, v)`. -/

def alistLookup {α : Type} : List (String × α) → String → Option α
  | [], _ => none
  | (k, v) :: t, key => if k = key then some v else alistLookup t key

def alistHas {α : Type} (l : List (String × α)) (key : String) : Bool :=
  (alistLookup l key).isSome

def alistSet {α : Type} : List (String × α) → String → α → List (String × α)
  | [], key, v => [(key, v)]
  | (k, w) :: t, key, v =>
      if k = key then (k, v) :: t else (k, w) :: alistSet t key v

/-! ### Sparse-array helpers

`roundHistory[i] = x` on a JS array can write past the end, creating holes;
the embedding is a `List (Option _)` with `none` for holes. -/

def getIdx {α : Type} (l : List (Option α)) (i : Nat) : Option α :=
  (l.getD i none)

def setIdx {α : Type} : List (Option α) → Nat → α → List (Option α)
  | [], 0, v => [some v]
  | [], n + 1, v => none :: setIdx [] n v
  | _ :: t, 0, v => some v :: t
  | h :: t, n + 1, v => h :: setIdx t n v

/-- Replace the element at index `i` (identity when out of range), used to
embed `players.$.isHost`-style positional updates. -/
def modifyIdx {α : Type} : List α → Nat → (α → α) → List α
  | [], _, _ => []
  | a :: t, 0, f => f a :: t
  | a :: t, n + 1, f => a :: modifyIdx t n f

/-- The category pool (`allCategories` in `startGame` and `startNextRound`). -/
def allCategories : List GameCategory :=
  [.business, .scenario, .wouldYouRather, .pleadForYourLife, .escape]

/-! ### Handler embeddings -/

/-- Embedding of the `startGame` socket handler (server.ts lines 692-788).
The surrounding process state is reduced to the caller identity resolved from
the registry and the room fetched from the store; `randIndex` is the draw
`Math.floor(Math.random() * room.players.length)`.  A `none` result embeds
the handler returning without touching the room (it only logs on failure). -/
def startGame (room : Option Room) (callerId : String) (randIndex : Nat) :
    Option Room :=
  match room with
  | none => none
  | some r =>
    match r.players.find? (fun p => p.id = callerId) with
    | none => none
    | some hostPlayer =>
      if !hostPlayer.isHost then none
      else if r.players.length < 2 then none
      else
        let initialScores : List (String × Int) := r.players.map (fun p => (p.id, 0))
        let categorySelector := (r.players.getD randIndex default).id
        let initialGameState : GameState :=
          { status := .categorySelection
            round := 1
            totalRounds := 5
            scores := initialScores
            answers := []
            categorySelector := categorySelector
            categories := allCategories
            currentCategory := none
            question := none
            judgingStyle := none
            timeRemaining := none
            judgingResult := none
            roundHistory := [] }
        some { r with status := .playing, currentRound := 1,
                      gameState := some initialGameState }

/-- Embedding of the `joinRoom` socket handler (server.ts lines 429-557).
`data_playerId` is the optional id sent by the client; `freshId` stands for
the `uuidv4()` generated when none is sent.  The reconnection branch (an
existing player with the same id) marks that player connected; the brand-new
branch enforces the cap of 8 and the exact (case-sensitive) nickname
comparison of the source before appending the player. -/
def joinRoomNew (r : Room) (data_nickname : String) (playerId : String) :
    Except String Room :=
  if r.players.length ≥ 8 then .error "Room is full"
  else if r.players.any (fun p => p.nickname = data_nickname) then
    .error "Nickname already exists in room"
  else
    let isHost := r.players.length = 0
    .ok { r with players := r.players ++
          [{ id := playerId, nickname := data_nickname,
             isHost := isHost, isConnected := true }] }

def joinRoom (room : Option Room) (data_nickname : String)
    (data_playerId : Option String) (freshId : String) : Except String Room :=
  match room with
  | none => .error "Room not found"
  | some r =>
    match data_playerId.bind
        (fun pid => (r.players.find? (fun p => p.id = pid)).map (fun _ => pid)) with
    | some pid =>
        -- reconnection with an existing player id: mark connected
        -- (the source only issues the write when the player was disconnected,
        -- which yields the same resulting document)
        let players' := r.players.map
          (fun p => if p.id = pid then { p with isConnected := true } else p)
        .ok { r with players := players' }
    | none => joinRoomNew r data_nickname (data_playerId.getD freshId)

/-- Embedding of the `answer.trim()` call of the submit handler: strip
leading and trailing whitespace from the character list. -/
def trimChars (s : String) : List Char :=
  ((s.data.dropWhile Char.isWhitespace).reverse.dropWhile Char.isWhitespace).reverse

/-- The mutation step of the `submitAnswer` handler once every validation
has passed (server.ts lines 977-1016): record the answer, and when every
connected player has answered force the timer to zero, move to `judging`,
and pre-seed the round-history slot when it is still empty.  Returns the
updated room and the `allPlayersAnswered` flag. -/
def recordAnswer (r : Room) (gs : GameState) (pid : String) (answer : String) :
    Room × Bool :=
  let answers' := gs.answers ++ [(pid, answer)]
  let connectedPlayers := r.players.filter (fun p => p.isConnected)
  let allPlayersAnswered :=
    connectedPlayers.all (fun p => (answers'.map (·.1)).contains p.id)
  if allPlayersAnswered then
    let preSeeded :=
      if getIdx gs.roundHistory (gs.round - 1) = none then
        setIdx gs.roundHistory (gs.round - 1)
          { round := none
            category := gs.currentCategory
            question := gs.question
            answers := answers'
            winners := none
            explanation := none }
      else gs.roundHistory
    let gs' : GameState :=
      { gs with answers := answers'
                timeRemaining := some 0
                status := .judging
                roundHistory := preSeeded }
    ({ r with gameState := some gs' }, true)
  else
    ({ r with gameState := some { gs with answers := answers' } }, false)

/-- Embedding of the `submitAnswer` socket handler (server.ts lines 936-1033).
Returns the updated room together with the `allPlayersAnswered` flag; an
`error` result embeds `socket.emit` of the corresponding message with no
store write.  A room whose `gameState` is missing makes the source throw on
`room.gameState.status`, which the catch block turns into the final error. -/
def submitAnswer (playerInfo : Option SocketPlayerInfo) (room : Option Room)
    (answer : String) : Except String (Room × Bool) :=
  match playerInfo with
  | none => .error "No room or player info found"
  | some pi =>
    if trimChars answer = [] then .error "Answer cannot be empty"
    else
      match room with
      | none => .error "Room not found"
      | some r =>
        match r.gameState with
        | none => .error "Failed to submit answer"
        | some gs =>
          if gs.status ≠ .answering then .error "Game is not in answering state"
          else if alistHas gs.answers pi.playerId then
            .error "You have already submitted an answer"
          else
            .ok (recordAnswer r gs pi.playerId answer)

/-- Embedding of `players.findIndex(p => p.isConnected)` (server.ts line
1711): index of the first connected player, `none` for `-1`. -/
def findConnectedIdx : List Player → Option Nat
  | [] => none
  | p :: t => if p.isConnected then some 0 else (findConnectedIdx t).map (· + 1)

/-- Embedding of `transferHostStatus` (server.ts lines 1701-1739): the first
player whose `isConnected` flag is set becomes host; when the room is empty
or no player is connected, nothing changes (the source returns `false`). -/
def transferHostStatus (room : Option Room) : Option Room :=
  match room with
  | none => none
  | some r =>
    if r.players.length = 0 then some r
    else
      match findConnectedIdx r.players with
      | none => some r
      | some i =>
        let players' := modifyIdx r.players i (fun p => { p with isHost := true })
        some { r with players := players' }

/-- Embedding of the `leaveRoom` socket handler (server.ts lines 563-686).
The `$pull` removes every player with the leaving id; when the leaver was
host and players remain, `transferHostStatus` runs.  The returned flag is
`players.length === 0` after removal, which decides whether the handler calls
`scheduleRoomDeletion` instead of broadcasting. -/
def leaveRoom (playerInfo : Option SocketPlayerInfo) (room : Option Room) :
    Except String (Room × Bool) :=
  match playerInfo with
  | none => .error "Not connected to a room"
  | some pi =>
    match room with
    | none => .error "Room not found"
    | some r =>
      match r.players.find? (fun p => p.id = pi.playerId) with
      | none => .error "You are not in this room"
      | some leavingPlayer =>
        let wasHost := leavingPlayer.isHost
        let r1 : Room :=
          { r with players := r.players.filter (fun p => p.id ≠ pi.playerId) }
        let r2 :=
          if wasHost ∧ r1.players.length > 0 then
            (transferHostStatus (some r1)).getD r1
          else r1
        .ok (r2, r2.players.length = 0)

/-- Embedding of the socket `disconnect` handler (server.ts lines 1308-1365):
when the registry knows the socket and the player is still in the room, the
single store write sets that player `isConnected = false`; otherwise the room
is untouched. -/
def disconnectHandler (playerInfo : Option SocketPlayerInfo)
    (room : Option Room) : Option Room :=
  match playerInfo, room with
  | some pi, some r =>
    match r.players.find? (fun p => p.id = pi.playerId) with
    | none => some r
    | some _ =>
      let players' := r.players.map
        (fun p => if p.id = pi.playerId then { p with isConnected := false } else p)
      some { r with players := players' }
  | _, rm => rm

/-- Embedding of the accumulator loop over `Object.entries(scores)` in
`startNextRound` (server.ts lines 1809-1819): `lowestScore` starts at
`Infinity` (the `none` accumulator) and an entry replaces the accumulator only
when its score is strictly smaller, so the first entry attaining the minimum
in iteration order wins.  The result is `lowestScorePlayer` (initially `''`). -/
def lowestScorePlayer (scores : List (String × Int)) : String :=
  (scores.foldl
    (fun acc kv =>
      match acc.2 with
      | none => (kv.1, some kv.2)
      | some l => if kv.2 < l then (kv.1, some kv.2) else acc)
    ("", (none : Option Int))).1

/-- Embedding of `startNextRound` (server.ts lines 1798-1876).  `randIndex`
is the draw used when `lowestScorePlayer` is still falsy (`''`). -/
def startNextRound (room : Option Room) (roundNumber : Nat) (randIndex : Nat) :
    Option Room :=
  match room with
  | none => none
  | some r =>
    match r.gameState with
    | none => none
    | some gs =>
      let lsp0 := lowestScorePlayer gs.scores
      let lsp :=
        if lsp0 = "" ∧ r.players.length > 0 then
          (r.players.getD randIndex default).id
        else lsp0
      let usedCategories := (gs.roundHistory.filterMap id).map (fun h => h.category)
      let avail0 := allCategories.filter (fun c => !usedCategories.contains (some c))
      let availableCategories := if avail0 = [] then allCategories else avail0
      let gs' : GameState :=
        { gs with status := .categorySelection
                  round := roundNumber
                  categorySelector := lsp
                  categories := availableCategories
                  answers := [] }
      some { r with currentRound := roundNumber, gameState := some gs' }

/-- Embedding of the `nextRound` socket handler (server.ts lines 1085-1163):
host-only, `results`-only; at the final round it sets `game-over`, otherwise
it delegates to `startNextRound` with the incremented round number.  The
`round || 1` and `totalRounds || 5` defaults of the source are the two
`if _ = 0` guards. -/
def nextRound (playerInfo : Option SocketPlayerInfo) (room : Option Room)
    (randIndex : Nat) : Option Room :=
  match playerInfo, room with
  | some pi, some r =>
    match r.players.find? (fun p => p.id = pi.playerId) with
    | none => none
    | some hostPlayer =>
      if !hostPlayer.isHost then none
      else
        match r.gameState with
        | none => none
        | some gs =>
          if gs.status ≠ .results then none
          else
            let currentRound := if gs.round = 0 then 1 else gs.round
            let totalRounds := if gs.totalRounds = 0 then 5 else gs.totalRounds
            if currentRound ≥ totalRounds then
              some { r with gameState := some { gs with status := .gameOver } }
            else
              startNextRound (some r) (currentRound + 1) randIndex
  | _, _ => none

/-! ### Deletion scheduler (server.ts lines 1742-1796)

The per-room view of the process state: the stored room, whether
`pendingRoomDeletions` holds a timer for it, and the events emitted to the
room so far. -/

structure ServerState where
  room : Option Room
  pendingDeletion : Bool
  events : List String
deriving DecidableEq, Repr

/-- Embedding of `scheduleRoomDeletion`: re-arms the grace-period timer and
broadcasts the non-destructive `roomInactive` notice; the stored room is not
touched. -/
def scheduleRoomDeletion (s : ServerState) : ServerState :=
  { s with pendingDeletion := true, events := s.events ++ ["roomInactive"] }

/-- Embedding of `cancelRoomDeletion`: clears any pending timer. -/
def cancelRoomDeletion (s : ServerState) : ServerState :=
  { s with pendingDeletion := false }

/-- Embedding of the timeout body of `scheduleRoomDeletion` firing: the room
is re-read and deleted only when it still exists with zero players; the
pending entry is cleaned up in every case. -/
def deletionTimerFire (s : ServerState) : ServerState :=
  match s.room with
  | some r =>
    if r.players.length = 0 then
      { room := none, pendingDeletion := false, events := s.events ++ ["roomEnded"] }
    else { s with pendingDeletion := false }
  | none => { s with pendingDeletion := false }

/-- The `leaveRoom` handler lifted to the process state: on success the store
holds the updated room, and a room left empty is scheduled for deletion
instead of being removed. -/
def leaveRoomServer (playerInfo : Option SocketPlayerInfo) (s : ServerState) :
    ServerState :=
  match leaveRoom playerInfo s.room with
  | .error _ => s
  | .ok (r', becameEmpty) =>
    let s' : ServerState := { s with room := some r' }
    if becameEmpty then scheduleRoomDeletion s' else s'

/-- The `joinRoom` handler lifted to the process state: every successful join
or rejoin calls `cancelRoomDeletion` on its way out. -/
def joinRoomServer (data_nickname : String) (data_playerId : Option String)
    (freshId : String) (s : ServerState) : ServerState :=
  match joinRoom s.room data_nickname data_playerId freshId with
  | .error _ => s
  | .ok r' => cancelRoomDeletion { s with room := some r' }

/-! ### Judging pipeline
(AIService.judgeAnswers, src/lib/ai/aiService.ts lines 680-744, and the
server-side `judgeAnswers`, server.ts lines 1485-1696). -/

/-- The `Math.random` draws consumed by `randomJudging` and
`generateRandomExplanation`: the 20% tie coin, the shuffle of
`getRandomElements` (a permutation of the player ids), the single-winner
index draw, and the explanation phrase index. -/
structure RandomDraws where
  tie : Bool
  shuffled : List String
  pick : Nat
  phrase : Nat
deriving Repr

/-- Embedding of `AIService.getRandomElement`: an index draw into the list. -/
def getRandomElement (l : List String) (pick : Nat) : String :=
  l.getD (pick % l.length) ""

/-- The five canned phrases of `generateRandomExplanation`. -/
def explanationPhrases : List String :=
  ["showed exceptional creativity and insight",
   "demonstrated incredible problem-solving skills",
   "presented a unique and compelling perspective",
   "combined humor and practicality in a brilliant way",
   "approached the challenge with remarkable originality"]

/-- Embedding of `AIService.generateRandomExplanation`. -/
def generateRandomExplanation (winners : List String)
    (answers : List (String × String)) (phrase : Nat) : String :=
  let ph := getRandomElement explanationPhrases phrase
  if winners.length = 1 then
    (alistLookup answers (winners.headD "")).getD "" ++ " " ++ ph ++
      ". The response stood out for its thoughtfulness and engaging approach."
  else
    "It was a tie. Both answers " ++ ph ++
      " and were equally impressive in their approach to the challenge."

/-- Embedding of `AIService.randomJudging` (aiService.ts lines 834-861): a
20% chance of a two-way tie taken from a shuffle of the ids, otherwise a
single uniformly drawn winner. -/
def randomJudging (playerIds : List String) (answers : List (String × String))
    (d : RandomDraws) : AIJudgingResult :=
  let isTie := d.tie ∧ playerIds.length > 1
  let winners :=
    if isTie then d.shuffled.take (min 2 d.shuffled.length)
    else [getRandomElement playerIds d.pick]
  { winners := winners
    explanation := generateRandomExplanation winners answers d.phrase }

/-- Embedding of `AIService.judgeAnswers` (aiService.ts lines 680-744).
`aiEnabled` is `isUsingAiJudging && apiCallsInCurrentSession < MAX`;
`apiResult` is the outcome of the external API call followed by
`parseJudgingResponse` (`none` when the call throws, in which case the
source falls back to `randomJudging` internally).  The second component
records whether the external Judge was consulted at all: with zero or one
answers the function returns before any API interaction. -/
def aiJudgeAnswers (answers : List (String × String)) (aiEnabled : Bool)
    (apiResult : Option AIJudgingResult) (d : RandomDraws) :
    AIJudgingResult × Bool :=
  let playerIds := answers.map (·.1)
  if playerIds.length = 0 then
    ({ winners := [], explanation := "No answers were submitted." }, false)
  else if playerIds.length = 1 then
    let sole := playerIds.headD ""
    ({ winners := [sole]
       explanation := (alistLookup answers sole).getD "" ++
         " was the only answer submitted and wins by default." }, false)
  else if aiEnabled then
    match apiResult with
    | some res => (res, true)
    | none => (randomJudging playerIds answers d, true)
  else
    (randomJudging playerIds answers d, false)

/-- The observable outcome of one server-side `judgeAnswers` call: the
resulting stored room, whether the pass ran at all (it returns early only
when the room or its `gameState` is missing), and whether the external Judge
was consulted. -/
structure JudgeOutcome where
  room : Option Room
  ranJudgingPass : Bool
  consultedExternalJudge : Bool
deriving Repr

/- Embedding of the server-side `judgeAnswers` (server.ts lines 1485-1696).

The source fetches the room and then UNCONDITIONALLY issues
`updateOne({code}, {$set: {'gameState.status': 'judging'}})` — the filter
carries no expected-phase predicate and nothing aborts the pass based on the
phase that was read — before snapshotting the answers, calling
`AIService.judgeAnswers`, applying its own random-winner fallback when the
result has no winners (lines 1595-1613), awarding 3 points per winner,
inserting the round-history entry only when the slot is empty (lines
1645-1658, `if (!roundHistory[currentRound - 1])`), and persisting
status `results` plus `judgingResult`, `scores` and `roundHistory` in one
update.  `serverPick` is the random index of the server-side fallback.

The pass is split here into named steps (`serverFallback`, `applyScores`,
`insertHistory`, `judgedGameState`, assembled by `judgeAnswers` below), a
direct factoring of the lines cited on each. -/
/-- The server-side fallback layered over the AIService result (server.ts
lines 1594-1613): when the result has no winners, a uniformly drawn
respondent wins (or nobody when there are no answers). -/
def serverFallback (answersObj : List (String × String))
    (aiRes : AIJudgingResult) (serverPick : Nat) : AIJudgingResult :=
  if aiRes.winners = [] then
    if answersObj.length > 0 then
      let keys := answersObj.map (·.1)
      { winners := [keys.getD (serverPick % keys.length) ""]
        explanation :=
          "The AI judge is currently on break, so a random winner was selected." }
    else
      { winners := []
        explanation := "No answers were submitted, so no winner was selected." }
  else aiRes

/-- The score update of `judgeAnswers` (server.ts lines 1629-1639): 3 points
per winner, with the `if (!scoreObj[winnerId]) scoreObj[winnerId] = 0`
initialisation folded in. -/
def applyScores (scores : List (String × Int)) (winners : List String) :
    List (String × Int) :=
  winners.foldl (fun sc w => alistSet sc w ((alistLookup sc w).getD 0 + 3)) scores

/-- The round-history update of `judgeAnswers` (server.ts lines 1641-1658):
the entry is added ONLY when the slot is empty; a pre-seeded slot is kept. -/
def insertHistory (gs : GameState) (judgingResult : AIJudgingResult) :
    List (Option RoundHistoryItem) :=
  if getIdx gs.roundHistory (gs.round - 1) = none then
    setIdx gs.roundHistory (gs.round - 1)
      { round := some gs.round
        category := gs.currentCategory
        question := some (gs.question.getD "")
        answers := gs.answers
        winners := some judgingResult.winners
        explanation := some judgingResult.explanation }
  else gs.roundHistory

/-- The game state persisted by the final update of the judging pass
(server.ts lines 1660-1675): status `results`, the judging result, the
updated scores and the round history. -/
def judgedGameState (gs : GameState) (aiEnabled : Bool)
    (apiResult : Option AIJudgingResult) (d : RandomDraws)
    (serverPick : Nat) : GameState :=
  let judgingResult := serverFallback gs.answers
    (aiJudgeAnswers gs.answers aiEnabled apiResult d).1 serverPick
  { gs with status := .results
            judgingResult := some judgingResult
            scores := applyScores gs.scores judgingResult.winners
            roundHistory := insertHistory gs judgingResult }

def judgeAnswers (room : Option Room) (aiEnabled : Bool)
    (apiResult : Option AIJudgingResult) (d : RandomDraws)
    (serverPick : Nat) : JudgeOutcome :=
  match room with
  | none => { room := none, ranJudgingPass := false, consultedExternalJudge := false }
  | some r =>
    match r.gameState with
    | none =>
      { room := some r, ranJudgingPass := false, consultedExternalJudge := false }
    | some gs =>
      let gs' := judgedGameState gs aiEnabled apiResult d serverPick
      { room := some { r with gameState := some gs' }
        ranJudgingPass := true
        consultedExternalJudge := (aiJudgeAnswers gs.answers aiEnabled apiResult d).2 }

/-! ### Theorems -/

/-- C7: `startGame` succeeds only when the caller is the current host and the
room has at least 2 players; on success it initializes `scores` to zero for
every current player, assigns `categorySelector` as the player drawn
uniformly at random among the room players, sets `round = 1`, clears
`roundHistory`, and moves the room to `category-selection` with room status
`playing`. -/
theorem startGame_spec (r : Room) (callerId : String) (randIndex : Nat) :
    (∀ r', startGame (some r) callerId randIndex = some r' →
      ∃ hp, r.players.find? (fun p => p.id = callerId) = some hp ∧
        hp.isHost = true ∧ 2 ≤ r.players.length) ∧
    (∀ hp, r.players.find? (fun p => p.id = callerId) = some hp →
      hp.isHost = true → 2 ≤ r.players.length →
      ∀ hri : randIndex < r.players.length,
      ∃ gs, startGame (some r) callerId randIndex =
          some { r with status := .playing, currentRound := 1, gameState := some gs } ∧
        gs.status = GStatus.categorySelection ∧
        gs.round = 1 ∧ gs.totalRounds = 5 ∧
        gs.roundHistory = [] ∧ gs.answers = [] ∧
        (∀ p ∈ r.players, (p.id, (0 : Int)) ∈ gs.scores) ∧
        gs.categorySelector = (r.players.get ⟨randIndex, hri⟩).id ∧
        gs.categorySelector ∈ r.players.map (fun p => p.id)) := by
  constructor
  · intro r' h
    rcases hfind : r.players.find? (fun p => p.id = callerId) with _ | hp
    · simp [startGame, hfind] at h
    · refine ⟨hp, hfind, ?_⟩
      rcases hh : hp.isHost with _ | _
      · simp [startGame, hfind, hh] at h
      · refine ⟨rfl, ?_⟩
        by_contra hl
        push_neg at hl
        simp [startGame, hfind, hh, hl] at h
  · intro hp hfind hhost hlen hri
    have hnl : ¬ r.players.length < 2 := by omega
    refine ⟨{ status := .categorySelection, round := 1, totalRounds := 5,
              categorySelector := (r.players.getD randIndex default).id,
              categories := allCategories, currentCategory := none,
              question := none, judgingStyle := none, timeRemaining := none,
              answers := [], scores := r.players.map (fun p => (p.id, 0)),
              judgingResult := none, roundHistory := [] },
            ?_, rfl, rfl, rfl, rfl, rfl, ?_, ?_, ?_⟩
    · simp [startGame, hfind, hhost, hnl]
    · intro p hp'
      exact List.mem_map_of_mem (fun q => (q.id, (0 : Int))) hp'
    · show (r.players.getD randIndex default).id = _
      rw [List.getD_eq_get?, List.get?_eq_get hri]
      rfl
    · show (r.players.getD randIndex default).id ∈ _
      rw [List.getD_eq_get?, List.get?_eq_get hri]
      simp only [Option.getD_some]
      exact List.mem_map_of_mem (fun p => p.id) (List.get_mem r.players randIndex hri)

/-- Concrete two-player room for the C7 witness. -/
def wRoomC7 : Room :=
  { code := "1234", status := .waiting,
    players := [{ id := "A", nickname := "Alice", isHost := true, isConnected := true },
                { id := "B", nickname := "Bob", isHost := false, isConnected := true }],
    currentRound := 0, gameState := none }

/-- Witness for C7: the spec applied to a concrete two-player room with the
host calling and random draw 1. -/
theorem startGame_spec_witness :
    ∃ gs, startGame (some wRoomC7) "A" 1 =
        some { wRoomC7 with status := .playing, currentRound := 1, gameState := some gs } ∧
      gs.status = GStatus.categorySelection ∧
      gs.round = 1 ∧ gs.totalRounds = 5 ∧
      gs.roundHistory = [] ∧ gs.answers = [] ∧
      (∀ p ∈ wRoomC7.players, (p.id, (0 : Int)) ∈ gs.scores) ∧
      gs.categorySelector = (wRoomC7.players.get ⟨1, by decide⟩).id ∧
      gs.categorySelector ∈ wRoomC7.players.map (fun p => p.id) :=
  (startGame_spec wRoomC7 "A" 1).2
    { id := "A", nickname := "Alice", isHost := true, isConnected := true }
    (by decide) rfl (by decide) (by decide)

/-- Auxiliary: flipping one player's `isConnected` flag preserves id,
nickname and host flag of every position. -/
theorem map_flag_preserves (l : List Player) (pid : String) :
    (l.map (fun p => if p.id = pid then { p with isConnected := false } else p)).map
        (fun p => (p.id, p.nickname, p.isHost)) =
      l.map (fun p => (p.id, p.nickname, p.isHost)) := by
  induction l with
  | nil => rfl
  | cons a t ih => by_cases h : a.id = pid <;> simp [h, ih]

/-- C9: a transport-level disconnect changes room state only by setting the
disconnecting player's `isConnected` flag to false — no player is removed,
and membership, nicknames, host flags, room status, current round and
`gameState` are all unchanged. -/
theorem disconnect_frame (pi : SocketPlayerInfo) (r : Room) :
    ∃ r', disconnectHandler (some pi) (some r) = some r' ∧
      r'.code = r.code ∧ r'.status = r.status ∧
      r'.currentRound = r.currentRound ∧ r'.gameState = r.gameState ∧
      r'.players.length = r.players.length ∧
      r'.players.map (fun p => (p.id, p.nickname, p.isHost)) =
        r.players.map (fun p => (p.id, p.nickname, p.isHost)) ∧
      (∀ i, (r'.players.get? i).map (fun p => p.isConnected) =
        (r.players.get? i).map
          (fun p => if p.id = pi.playerId then false else p.isConnected)) := by
  rcases hfind : r.players.find? (fun p => p.id = pi.playerId) with _ | q
  · refine ⟨r, by simp [disconnectHandler, hfind], rfl, rfl, rfl, rfl, rfl, rfl, ?_⟩
    intro i
    rcases hg : r.players.get? i with _ | p
    · rfl
    · have hmem : p ∈ r.players := List.get?_mem hg
      have hne : ¬ (p.id = pi.playerId) := by
        have := List.find?_eq_none.mp hfind p hmem
        simpa using this
      simp [hne]
  · refine ⟨{ r with players := r.players.map (fun p => if p.id = pi.playerId then { p with isConnected := false } else p) }, by simp [disconnectHandler, hfind], rfl, rfl, rfl, rfl, by simp, ?_, ?_⟩
    · exact map_flag_preserves r.players pi.playerId
    · intro i
      show ((r.players.map _).get? i).map _ = _
      rw [List.get?_map]
      rcases hg : r.players.get? i with _ | p
      · rfl
      · by_cases h : p.id = pi.playerId <;> simp [hg, h]

/-- Predicate used to state success of `Except`-returning handlers. -/
def isOkE {ε α : Type} : Except ε α → Bool
  | .ok _ => true
  | .error _ => false

/-- Concrete one-player room for the C6 counterexample. -/
def cexRoomC6 : Room :=
  { code := "1234", status := .waiting,
    players := [{ id := "A", nickname := "Alice", isHost := true, isConnected := true }],
    currentRound := 0, gameState := none }

/-- The room `cexRoomC6` after the clashing lowercase join is accepted. -/
def cexRoomC6' : Room :=
  { code := "1234", status := .waiting,
    players := [{ id := "A", nickname := "Alice", isHost := true, isConnected := true },
                { id := "B", nickname := "alice", isHost := false, isConnected := true }],
    currentRound := 0, gameState := none }

/-- C6 as stated fails on the code: the socket `joinRoom` handler compares
nicknames with a case-SENSITIVE `===`.  A room containing "Alice" accepts a
brand-new join with nickname "alice", although the two nicknames coincide
case-insensitively, so a join the claim requires to be rejected succeeds. -/
theorem joinRoom_case_insensitive_cex :
    "Alice".data.map Char.toLower = "alice".data.map Char.toLower ∧
    joinRoom (some cexRoomC6) "alice" none "B" = .ok cexRoomC6' := by
  exact ⟨by decide, rfl⟩

/-- C6 amended: a brand-new join via the socket handler succeeds iff the
room exists, has fewer than 8 players, and the requested nickname is not
already used under an EXACT (case-sensitive) comparison; on success the new
player is appended with host status iff the player list was empty; on
failure an error is returned and no room is produced. -/
theorem joinRoom_new_spec (r : Room) (nick freshId : String) :
    (isOkE (joinRoom (some r) nick none freshId) = true ↔
      (r.players.length < 8 ∧ ∀ p ∈ r.players, p.nickname ≠ nick)) ∧
    (∀ r', joinRoom (some r) nick none freshId = .ok r' →
      r'.players = r.players ++
        [{ id := freshId, nickname := nick,
           isHost := r.players.length = 0, isConnected := true }] ∧
      r'.code = r.code ∧ r'.status = r.status ∧
      r'.currentRound = r.currentRound ∧ r'.gameState = r.gameState) ∧
    joinRoom none nick none freshId = .error "Room not found" := by
  have hred : joinRoom (some r) nick none freshId = joinRoomNew r nick freshId := rfl
  rw [hred]
  refine ⟨?_, ?_, rfl⟩
  · by_cases h8 : r.players.length ≥ 8
    · rw [joinRoomNew, if_pos h8]
      simp only [isOkE, Bool.false_eq_true, false_iff, not_and]
      intro hlen
      omega
    · by_cases hn : (r.players.any (fun p => p.nickname = nick)) = true
      · rw [joinRoomNew, if_neg h8, if_pos hn]
        simp only [isOkE, Bool.false_eq_true, false_iff, not_and]
        intro _
        rcases List.any_eq_true.mp hn with ⟨p, hp, hpe⟩
        intro hall
        exact hall p hp (by simpa using hpe)
      · rw [joinRoomNew, if_neg h8, if_neg hn]
        simp only [isOkE, true_iff]
        refine ⟨by omega, ?_⟩
        intro p hp hpe
        exact hn (List.any_eq_true.mpr ⟨p, hp, by simpa using hpe⟩)
  · intro r' h
    by_cases h8 : r.players.length ≥ 8
    · rw [joinRoomNew, if_pos h8] at h
      exact absurd h (by simp)
    · by_cases hn : (r.players.any (fun p => p.nickname = nick)) = true
      · rw [joinRoomNew, if_neg h8, if_pos hn] at h
        exact absurd h (by simp)
      · rw [joinRoomNew, if_neg h8, if_neg hn] at h
        obtain rfl := Except.ok.inj h
        exact ⟨rfl, rfl, rfl, rfl, rfl⟩

/-- Witness for the amended C6 at the concrete room of the counterexample. -/
theorem joinRoom_new_spec_witness :
    cexRoomC6'.players = cexRoomC6.players ++
      [{ id := "B", nickname := "alice",
         isHost := cexRoomC6.players.length = 0, isConnected := true }] ∧
    cexRoomC6'.code = cexRoomC6.code ∧ cexRoomC6'.status = cexRoomC6.status ∧
    cexRoomC6'.currentRound = cexRoomC6.currentRound ∧
    cexRoomC6'.gameState = cexRoomC6.gameState :=
  (joinRoom_new_spec cexRoomC6 "alice" "B").2.1 cexRoomC6' rfl

/-- Auxiliary: an absent key looked up after being appended. -/
theorem alistLookup_append_of_none {α : Type} (l : List (String × α))
    (k : String) (v : α) (h : alistLookup l k = none) :
    alistLookup (l ++ [(k, v)]) k = some v := by
  induction l with
  | nil => simp [alistLookup]
  | cons a t ih =>
    rcases a with ⟨k', v'⟩
    by_cases hk : k' = k
    · simp [alistLookup, hk] at h
    · simp only [List.cons_append, alistLookup, hk, if_false] at h ⊢
      exact ih h

/-- Auxiliary: `alistHas` is the `isSome` of the lookup. -/
theorem alistHas_false_iff {α : Type} (l : List (String × α)) (k : String) :
    alistHas l k = false ↔ alistLookup l k = none := by
  unfold alistHas
  cases alistLookup l k <;> simp

/-- Concrete game state and room for the C5 counterexample: one connected
player "A", phase `answering`, no answers yet. -/
def cexGsC5 : GameState :=
  { status := .answering, round := 1, totalRounds := 5, categorySelector := "A",
    categories := allCategories, currentCategory := some .scenario,
    question := some "Q", judgingStyle := some "humor", timeRemaining := some 180,
    answers := [], scores := [("A", 0)], judgingResult := none, roundHistory := [] }

def cexRoomC5 : Room :=
  { code := "1234", status := .playing,
    players := [{ id := "A", nickname := "Alice", isHost := true, isConnected := true }],
    currentRound := 1, gameState := some cexGsC5 }

/-- C5 as stated fails on the code: the handler never checks that the caller
is a player of the room.  A connection registered with player id "X", which
is not in the player list of the room, submits during `answering` and the
call succeeds, recording the answer under "X", where the claim requires a
rejection with no mutation. -/
theorem submitAnswer_nonmember_cex :
    (∀ p ∈ cexRoomC5.players, p.id ≠ "X") ∧
    submitAnswer (some ⟨"X", "1234", "x"⟩) (some cexRoomC5) "hi" =
      .ok ({ cexRoomC5 with gameState := some { cexGsC5 with answers := [("X", "hi")] } },
        false) ∧
    alistLookup [("X", "hi")] "X" = some "hi" := by
  exact ⟨by decide, by rfl, rfl⟩

/-- C5 amended: `submitAnswer` is rejected with an error and mutates nothing
when a precondition fails, and the enforced preconditions are: the caller
has a registered connection (the handler does NOT check that the caller's id
belongs to the room's player list), the room exists and is in `answering`,
the caller has no answer recorded, and the text is non-empty after trimming;
when these hold, the answer text is recorded under the caller's player id. -/
theorem submitAnswer_spec (pi : SocketPlayerInfo) (r : Room) (gs : GameState)
    (txt : String) (hgs : r.gameState = some gs) :
    (isOkE (submitAnswer (some pi) (some r) txt) = true ↔
      (trimChars txt ≠ [] ∧ gs.status = GStatus.answering ∧
        alistHas gs.answers pi.playerId = false)) ∧
    (∀ r' b, submitAnswer (some pi) (some r) txt = .ok (r', b) →
      ∃ gs', r'.gameState = some gs' ∧
        alistLookup gs'.answers pi.playerId = some txt ∧
        r'.players = r.players ∧ r'.code = r.code) ∧
    isOkE (submitAnswer none (some r) txt) = false ∧
    isOkE (submitAnswer (some pi) none txt) = false := by
  have hred : submitAnswer (some pi) (some r) txt =
      (if trimChars txt = [] then .error "Answer cannot be empty"
       else if gs.status ≠ .answering then .error "Game is not in answering state"
       else if alistHas gs.answers pi.playerId then
         .error "You have already submitted an answer"
       else .ok (recordAnswer r gs pi.playerId txt)) := by
    simp only [submitAnswer, hgs]
  have hrec : ∀ rb, recordAnswer r gs pi.playerId txt = rb →
      alistHas gs.answers pi.playerId = false →
      ∃ gs', rb.1.gameState = some gs' ∧
        alistLookup gs'.answers pi.playerId = some txt ∧
        rb.1.players = r.players ∧ rb.1.code = r.code := by
    intro rb hrb hha
    have hlook : alistLookup (gs.answers ++ [(pi.playerId, txt)]) pi.playerId = some txt :=
      alistLookup_append_of_none _ _ _ ((alistHas_false_iff _ _).mp hha)
    unfold recordAnswer at hrb
    by_cases hall : ((r.players.filter (fun p => p.isConnected)).all
        (fun p => (((gs.answers ++ [(pi.playerId, txt)]).map (·.1)).contains p.id))) = true
    · rw [if_pos hall] at hrb
      subst hrb
      exact ⟨_, rfl, hlook, rfl, rfl⟩
    · rw [if_neg hall] at hrb
      subst hrb
      exact ⟨_, rfl, hlook, rfl, rfl⟩
  refine ⟨?_, ?_, ?_, ?_⟩
  · rw [hred]
    by_cases ht : trimChars txt = []
    · rw [if_pos ht]
      simp only [isOkE, Bool.false_eq_true, false_iff, not_and]
      intro h
      exact absurd ht h
    · rw [if_neg ht]
      by_cases hst : gs.status = GStatus.answering
      · rw [if_neg (by simp [hst])]
        by_cases hha : alistHas gs.answers pi.playerId = true
        · rw [if_pos hha]
          simp only [isOkE, Bool.false_eq_true, false_iff, not_and]
          intro _ _ hfalse
          rw [hha] at hfalse
          cases hfalse
        · rw [if_neg hha]
          simp only [isOkE, true_iff]
          exact ⟨ht, hst, by simpa using hha⟩
      · rw [if_pos (by simp [hst])]
        simp only [isOkE, Bool.false_eq_true, false_iff, not_and]
        intro _ hst'
        exact absurd hst' hst
  · intro r' b h
    rw [hred] at h
    by_cases ht : trimChars txt = []
    · rw [if_pos ht] at h
      exact absurd h (by simp)
    · rw [if_neg ht] at h
      by_cases hst : gs.status = GStatus.answering
      · rw [if_neg (by simp [hst])] at h
        by_cases hha : alistHas gs.answers pi.playerId = true
        · rw [if_pos hha] at h
          exact absurd h (by simp)
        · rw [if_neg hha] at h
          have hrb := Except.ok.inj h
          exact hrec (r', b) hrb (by simpa using hha)
      · rw [if_pos (by simp [hst])] at h
        exact absurd h (by simp)
  · rfl
  · by_cases ht : trimChars txt = []
    · show isOkE (if trimChars txt = [] then _ else _) = false
      rw [if_pos ht]
      rfl
    · show isOkE (if trimChars txt = [] then _ else _) = false
      rw [if_neg ht]
      rfl

/-- Witness for the amended C5: the registered connected player of the
concrete room submits a non-empty answer successfully. -/
theorem submitAnswer_spec_witness :
    isOkE (submitAnswer (some ⟨"A", "1234", "Alice"⟩) (some cexRoomC5) "hi") = true :=
  ((submitAnswer_spec ⟨"A", "1234", "Alice"⟩ cexRoomC5 cexGsC5 "hi" rfl).1).mpr
    ⟨by decide, rfl, rfl⟩

/-- Auxiliary: `findConnectedIdx` returns `none` iff no player is connected. -/
theorem findConnectedIdx_none_iff (l : List Player) :
    findConnectedIdx l = none ↔ ∀ p ∈ l, p.isConnected = false := by
  induction l with
  | nil => simp [findConnectedIdx]
  | cons a t ih =>
    by_cases h : a.isConnected
    · simp [findConnectedIdx, h]
    · simp only [findConnectedIdx, h, if_false, Option.map_eq_none', ih,
        List.mem_cons, Bool.false_eq_true]
      constructor
      · intro hall p hp
        rcases hp with rfl | hp
        · simpa using h
        · exact hall p hp
      · intro hall p hp
        exact hall p (Or.inr hp)

/-- Auxiliary: a successful `findConnectedIdx` points at a connected player. -/
theorem findConnectedIdx_some (l : List Player) (i : Nat)
    (h : findConnectedIdx l = some i) :
    ∃ q, l.get? i = some q ∧ q.isConnected = true := by
  induction l generalizing i with
  | nil => cases h
  | cons a t ih =>
    by_cases ha : a.isConnected
    · simp only [findConnectedIdx, ha, if_true, Option.some.injEq] at h
      subst h
      exact ⟨a, rfl, ha⟩
    · rcases hft : findConnectedIdx t with _ | j
      · rw [findConnectedIdx, if_neg (by simp [ha]), hft] at h
        cases h
      · rw [findConnectedIdx, if_neg (by simp [ha]), hft, Option.map_some'] at h
        obtain rfl := Option.some.inj h
        rcases ih j hft with ⟨q, hq, hqc⟩
        exact ⟨q, by simpa using hq, hqc⟩

/-- Auxiliary: `modifyIdx` only changes the addressed position. -/
theorem get?_modifyIdx {α : Type} (l : List α) (i j : Nat) (f : α → α) :
    (modifyIdx l i f).get? j =
      if i = j then (l.get? j).map f else l.get? j := by
  induction l generalizing i j with
  | nil => cases i <;> cases j <;> simp [modifyIdx]
  | cons a t ih =>
    cases i with
    | zero => cases j <;> simp [modifyIdx]
    | succ n =>
      cases j with
      | zero => simp [modifyIdx]
      | succ m => simpa [modifyIdx, Nat.succ_inj] using ih n m

/-- Auxiliary: promoting one element of a host-free list to host yields a
host count of exactly one. -/
theorem countP_modifyIdx_host (l : List Player) (i : Nat) (hi : i < l.length)
    (hall : ∀ p ∈ l, p.isHost = false) :
    (modifyIdx l i (fun p => { p with isHost := true })).countP
      (fun p => p.isHost) = 1 := by
  induction l generalizing i with
  | nil => cases hi
  | cons a t ih =>
    cases i with
    | zero =>
      have ht : t.countP (fun p => p.isHost) = 0 :=
        List.countP_eq_zero.mpr (fun p hp => by simp [hall p (List.mem_cons_of_mem a hp)])
      simp [modifyIdx, List.countP_cons, ht]
    | succ n =>
      have hn : n < t.length := Nat.lt_of_succ_lt_succ hi
      have ha : a.isHost = false := hall a (List.mem_cons_self a t)
      have := ih n hn (fun p hp => hall p (List.mem_cons_of_mem a hp))
      simp [modifyIdx, List.countP_cons, ha, this]

/-- Concrete room for the C3 counterexample: the host is connected and the
only other player is disconnected. -/
def cexRoomC3 : Room :=
  { code := "1234", status := .playing,
    players := [{ id := "A", nickname := "Alice", isHost := true, isConnected := true },
                { id := "B", nickname := "Bob", isHost := false, isConnected := false }],
    currentRound := 1, gameState := none }

/-- C3 as stated fails on the code: when the host leaves and the only
remaining player is disconnected, `transferHostStatus` finds no connected
player and gives up, leaving a NON-EMPTY room with ZERO hosts, so neither
the exactly-one-host invariant nor the unconditional transfer holds. -/
theorem leaveRoom_no_host_cex :
    ∃ r', leaveRoom (some ⟨"A", "1234", "Alice"⟩) (some cexRoomC3) = .ok (r', false) ∧
      r'.players ≠ [] ∧ r'.players.countP (fun p => p.isHost) = 0 := by
  refine ⟨{ cexRoomC3 with players := [{ id := "B", nickname := "Bob", isHost := false, isConnected := false }] }, by rfl, by decide, by rfl⟩

/-- C3 amended: when the sole host leaves, at most one host remains; host
status is transferred to the first CONNECTED remaining player when one
exists, and when every remaining player is disconnected the room is left
with no host even though players remain. -/
theorem leaveRoom_host_transfer (pi : SocketPlayerInfo) (r : Room)
    (leaving : Player)
    (hfind : r.players.find? (fun p => p.id = pi.playerId) = some leaving)
    (hhost : leaving.isHost = true)
    (huniq : ∀ p ∈ r.players, p.isHost = true → p.id = pi.playerId) :
    ∃ r' b, leaveRoom (some pi) (some r) = .ok (r', b) ∧
      r'.players.countP (fun p => p.isHost) ≤ 1 ∧
      (((r.players.filter (fun p => p.id ≠ pi.playerId)).any (fun p => p.isConnected)) = true →
        r'.players.countP (fun p => p.isHost) = 1) ∧
      (((r.players.filter (fun p => p.id ≠ pi.playerId)).any (fun p => p.isConnected)) = false →
        r'.players.countP (fun p => p.isHost) = 0) ∧
      (∀ i, findConnectedIdx (r.players.filter (fun p => p.id ≠ pi.playerId)) = some i →
        ∃ q, (r.players.filter (fun p => p.id ≠ pi.playerId)).get? i = some q ∧
          q.isConnected = true ∧
          r'.players.get? i = some { q with isHost := true }) := by
  have hnohost : ∀ p ∈ r.players.filter (fun p => p.id ≠ pi.playerId),
      p.isHost = false := by
    intro p hp
    rcases List.mem_filter.mp hp with ⟨hmem, hne⟩
    rcases hb : p.isHost with _ | _
    · rfl
    · exact absurd (huniq p hmem hb) (by simpa using hne)
  set remaining := r.players.filter (fun p => p.id ≠ pi.playerId) with hremdef
  have hrem0 : remaining.countP (fun p => p.isHost) = 0 :=
    List.countP_eq_zero.mpr (fun p hp => by simp [hnohost p hp])
  have hred : leaveRoom (some pi) (some r) =
      .ok (if leaving.isHost = true ∧ remaining.length > 0 then
             (transferHostStatus (some { r with players := remaining })).getD
               { r with players := remaining }
           else { r with players := remaining },
           ((if leaving.isHost = true ∧ remaining.length > 0 then
             (transferHostStatus (some { r with players := remaining })).getD
               { r with players := remaining }
           else { r with players := remaining }).players.length = 0)) := by
    simp only [leaveRoom, hfind, hremdef]
  rcases hlen : remaining.length with _ | n
  · have hrem_nil : remaining = [] := List.length_eq_zero.mp hlen
    have hcond : ¬ (leaving.isHost = true ∧ remaining.length > 0) := by
      simp [hlen]
    rw [hred, if_neg hcond]
    refine ⟨_, _, rfl, ?_, ?_, ?_, ?_⟩
    · show List.countP (fun p => p.isHost) remaining ≤ 1
      omega
    · intro hany
      rw [hrem_nil] at hany
      simp at hany
    · intro _
      exact hrem0
    · intro i hi
      rw [hrem_nil] at hi
      simp [findConnectedIdx] at hi
  · have hcond : leaving.isHost = true ∧ remaining.length > 0 := ⟨hhost, by omega⟩
    rw [hred, if_pos hcond]
    have hlen0 : ¬ ({ r with players := remaining } : Room).players.length = 0 := by
      simp [hlen]
    rcases hfc : findConnectedIdx remaining with _ | i
    · have hths : transferHostStatus (some { r with players := remaining }) =
          some { r with players := remaining } := by
        simp only [transferHostStatus, if_neg hlen0]
        rw [show findConnectedIdx ({ r with players := remaining } : Room).players =
              none from hfc]
      rw [hths]
      refine ⟨_, _, rfl, ?_, ?_, ?_, ?_⟩
      · show List.countP (fun p => p.isHost) remaining ≤ 1
        omega
      · intro hany
        rcases List.any_eq_true.mp hany with ⟨p, hp, hpc⟩
        have := (findConnectedIdx_none_iff remaining).mp hfc p hp
        simp [this] at hpc
      · intro _
        exact hrem0
      · intro i hi
        cases hi
    · have hths : transferHostStatus (some { r with players := remaining }) =
          some { r with players := modifyIdx remaining i (fun p => { p with isHost := true }) } := by
        simp only [transferHostStatus, if_neg hlen0]
        rw [show findConnectedIdx ({ r with players := remaining } : Room).players =
              some i from hfc]
      rw [hths]
      rcases findConnectedIdx_some remaining i hfc with ⟨q, hq, hqc⟩
      have hilt : i < remaining.length := by
        by_contra hge
        push_neg at hge
        rw [List.get?_eq_none.mpr hge] at hq
        cases hq
      have hcount := countP_modifyIdx_host remaining i hilt hnohost
      refine ⟨_, _, rfl, ?_, ?_, ?_, ?_⟩
      · show (modifyIdx remaining i (fun p => { p with isHost := true })).countP
            (fun p => p.isHost) ≤ 1
        omega
      · intro _
        exact hcount
      · intro hany
        have := (findConnectedIdx_none_iff remaining).mpr ?_
        · rw [hfc] at this
          cases this
        · intro p hp
          rcases hpb : p.isConnected with _ | _
          · rfl
          · exfalso
            have : remaining.any (fun p => p.isConnected) = true :=
              List.any_eq_true.mpr ⟨p, hp, by simp [hpb]⟩
            rw [hany] at this
            cases this
      · intro j hj
        obtain rfl := Option.some.inj hj
        refine ⟨q, hq, hqc, ?_⟩
        show (modifyIdx remaining i (fun p => { p with isHost := true })).get? i = _
        rw [get?_modifyIdx, if_pos rfl, hq]
        rfl

/-- Concrete room for the C3 witness: host "A" leaves while connected "B"
remains. -/
def wRoomC3 : Room :=
  { code := "1234", status := .playing,
    players := [{ id := "A", nickname := "Alice", isHost := true, isConnected := true },
                { id := "B", nickname := "Bob", isHost := false, isConnected := true }],
    currentRound := 1, gameState := none }

/-- Witness for the amended C3 at a room whose remaining player is
connected. -/
theorem leaveRoom_host_transfer_witness :
    ∃ r' b, leaveRoom (some ⟨"A", "1234", "Alice"⟩) (some wRoomC3) = .ok (r', b) ∧
      r'.players.countP (fun p => p.isHost) ≤ 1 ∧
      (((wRoomC3.players.filter (fun p => p.id ≠ "A")).any (fun p => p.isConnected)) = true →
        r'.players.countP (fun p => p.isHost) = 1) ∧
      (((wRoomC3.players.filter (fun p => p.id ≠ "A")).any (fun p => p.isConnected)) = false →
        r'.players.countP (fun p => p.isHost) = 0) ∧
      (∀ i, findConnectedIdx (wRoomC3.players.filter (fun p => p.id ≠ "A")) = some i →
        ∃ q, (wRoomC3.players.filter (fun p => p.id ≠ "A")).get? i = some q ∧
          q.isConnected = true ∧
          r'.players.get? i = some { q with isHost := true }) :=
  leaveRoom_host_transfer ⟨"A", "1234", "Alice"⟩ wRoomC3
    { id := "A", nickname := "Alice", isHost := true, isConnected := true }
    (by decide) rfl (by decide)

/-- The accumulator step of the `startNextRound` minimum scan, named for the
fold lemmas below. -/
def minStep (acc : String × Option Int) (kv : String × Int) : String × Option Int :=
  match acc.2 with
  | none => (kv.1, some kv.2)
  | some l => if kv.2 < l then (kv.1, some kv.2) else acc

/-- Auxiliary: the running fold keeps an entry of the list (or the seed) and
its value is a lower bound for everything scanned. -/
theorem foldl_minStep_spec (l : List (String × Int)) (k : String) (v : Int) :
    ∃ k' v', l.foldl minStep (k, some v) = (k', some v') ∧
      ((k' = k ∧ v' = v) ∨ (k', v') ∈ l) ∧ v' ≤ v ∧ ∀ kv ∈ l, v' ≤ kv.2 := by
  induction l generalizing k v with
  | nil => exact ⟨k, v, rfl, Or.inl ⟨rfl, rfl⟩, le_refl v, by simp⟩
  | cons a t ih =>
    by_cases h : a.2 < v
    · rcases ih a.1 a.2 with ⟨k', v', heq, hmem, hle, hall⟩
      refine ⟨k', v', ?_, ?_, ?_, ?_⟩
      · rw [List.foldl_cons]
        rw [show minStep (k, some v) a = (a.1, some a.2) by simp [minStep, h]]
        exact heq
      · rcases hmem with ⟨rfl, rfl⟩ | hm
        · exact Or.inr (by simpa using List.mem_cons_self a t)
        · exact Or.inr (List.mem_cons_of_mem a hm)
      · omega
      · intro kv hkv
        rcases List.mem_cons.mp hkv with rfl | hm
        · exact hle
        · exact hall kv hm
    · rcases ih k v with ⟨k', v', heq, hmem, hle, hall⟩
      refine ⟨k', v', ?_, ?_, hle, ?_⟩
      · rw [List.foldl_cons]
        rw [show minStep (k, some v) a = (k, some v) by simp [minStep, h]]
        exact heq
      · rcases hmem with ⟨rfl, rfl⟩ | hm
        · exact Or.inl ⟨rfl, rfl⟩
        · exact Or.inr (List.mem_cons_of_mem a hm)
      · intro kv hkv
        rcases List.mem_cons.mp hkv with rfl | hm
        · omega
        · exact hall kv hm

/-- Auxiliary: on a non-empty scores map, `lowestScorePlayer` is the key of
an entry attaining the minimum value. -/
theorem lowestScorePlayer_mem (scores : List (String × Int)) (hne : scores ≠ []) :
    ∃ v, (lowestScorePlayer scores, v) ∈ scores ∧ ∀ kv ∈ scores, v ≤ kv.2 := by
  rcases scores with _ | ⟨a, t⟩
  · exact absurd rfl hne
  · rcases foldl_minStep_spec t a.1 a.2 with ⟨k', v', heq, hmem, hle, hall⟩
    have hfold : lowestScorePlayer (a :: t) = k' := by
      show (List.foldl minStep ("", (none : Option Int)) (a :: t)).1 = k'
      rw [List.foldl_cons,
        show minStep ("", (none : Option Int)) a = (a.1, some a.2) from rfl, heq]
    rw [hfold]
    refine ⟨v', ?_, ?_⟩
    · rcases hmem with ⟨rfl, rfl⟩ | hm
      · exact by simpa using List.mem_cons_self a t
      · exact List.mem_cons_of_mem a hm
    · intro kv hkv
      rcases List.mem_cons.mp hkv with rfl | hm
      · exact hle
      · exact hall kv hm

/-- The category-selector recomputation as the CLAIM states it (a random
pick among the tied lowest-score players, or a uniformly random player when
the scores map is empty); written only to be compared with the embedded
code. -/
def claimCategorySelector (scores : List (String × Int)) (players : List Player)
    (randIndex : Nat) : String :=
  if scores = [] then (players.getD (randIndex % players.length) default).id
  else
    let vals := scores.map (·.2)
    let m := vals.foldl min (vals.headD 0)
    let tied := (scores.filter (fun kv => kv.2 = m)).map (·.1)
    tied.getD (randIndex % tied.length) ""

/-- Concrete room for the C4 counterexample: two players tied at score 0,
room in `results`. -/
def cexGsC4 : GameState :=
  { status := .results, round := 1, totalRounds := 5, categorySelector := "A",
    categories := allCategories, currentCategory := some .scenario,
    question := some "Q", judgingStyle := some "humor", timeRemaining := some 0,
    answers := [("A", "x"), ("B", "y")], scores := [("A", 0), ("B", 0)],
    judgingResult := some { winners := ["A"], explanation := "good" },
    roundHistory := [] }

def cexRoomC4 : Room :=
  { code := "1234", status := .playing,
    players := [{ id := "A", nickname := "Alice", isHost := true, isConnected := true },
                { id := "B", nickname := "Bob", isHost := false, isConnected := true }],
    currentRound := 1, gameState := some cexGsC4 }

/-- C4 as stated fails on the code: with "A" and "B" tied at the lowest
score, the claimed random tie-break can select "B" (random draw 1), but the
code's scan keeps the FIRST entry attaining the minimum in iteration order
and deterministically selects "A" for the same draw. -/
theorem nextRound_tiebreak_cex :
    claimCategorySelector [("A", 0), ("B", 0)] cexRoomC4.players 1 = "B" ∧
    ((nextRound (some ⟨"A", "1234", "Alice"⟩) (some cexRoomC4) 1).bind
      (fun r => r.gameState.map (fun gs => gs.categorySelector))) = some "A" ∧
    ("A" : String) ≠ "B" := by
  exact ⟨by rfl, by rfl, by decide⟩

/-- C4 amended: `nextRound` succeeds only for the host in `results`; at
`round ≥ totalRounds` it moves to `game-over`; otherwise it recomputes the
category pool (all categories minus the ones recorded in `roundHistory`,
reset to the full pool when exhausted), increments the round, clears the
answers, returns to `category-selection`, and sets `categorySelector` to the
player with the lowest score, ties broken DETERMINISTICALLY in favor of the
first lowest entry in the scores map's iteration order — a random pick
occurs only when the scan yields the falsy key (in particular when `scores`
is empty). -/
theorem nextRound_spec (pi : SocketPlayerInfo) (r : Room) (gs : GameState)
    (hp : Player) (ri : Nat)
    (hgs : r.gameState = some gs)
    (hfind : r.players.find? (fun p => p.id = pi.playerId) = some hp)
    (hhost : hp.isHost = true)
    (hres : gs.status = GStatus.results) :
    ((if gs.round = 0 then 1 else gs.round) ≥ (if gs.totalRounds = 0 then 5 else gs.totalRounds) →
      nextRound (some pi) (some r) ri =
        some { r with gameState := some { gs with status := .gameOver } }) ∧
    ((if gs.round = 0 then 1 else gs.round) < (if gs.totalRounds = 0 then 5 else gs.totalRounds) →
      ∃ gs', nextRound (some pi) (some r) ri =
          some { r with currentRound := (if gs.round = 0 then 1 else gs.round) + 1,
                        gameState := some gs' } ∧
        gs'.status = GStatus.categorySelection ∧
        gs'.round = (if gs.round = 0 then 1 else gs.round) + 1 ∧
        gs'.answers = [] ∧
        gs'.categories =
          (let usedCategories := (gs.roundHistory.filterMap id).map (fun h => h.category)
           let avail0 := allCategories.filter (fun c => !usedCategories.contains (some c))
           if avail0 = [] then allCategories else avail0) ∧
        (lowestScorePlayer gs.scores ≠ "" →
          gs'.categorySelector = lowestScorePlayer gs.scores ∧
          (gs.scores ≠ [] →
            ∃ v, (gs'.categorySelector, v) ∈ gs.scores ∧ ∀ kv ∈ gs.scores, v ≤ kv.2)) ∧
        (lowestScorePlayer gs.scores = "" → 0 < r.players.length →
          ∀ h : ri < r.players.length,
            gs'.categorySelector = (r.players.get ⟨ri, h⟩).id)) ∧
    (∀ (pj : SocketPlayerInfo) (rj : Room) (rij : Nat) (rr : Room),
      nextRound (some pj) (some rj) rij = some rr →
      ∃ hpj, rj.players.find? (fun p => p.id = pj.playerId) = some hpj ∧
        hpj.isHost = true ∧
        ∃ gsj, rj.gameState = some gsj ∧ gsj.status = GStatus.results) := by
  have hstat : ¬ (gs.status ≠ GStatus.results) := by simp [hres]
  have hred : nextRound (some pi) (some r) ri =
      (if (if gs.round = 0 then 1 else gs.round) ≥ (if gs.totalRounds = 0 then 5 else gs.totalRounds)
       then some { r with gameState := some { gs with status := .gameOver } }
       else startNextRound (some r) ((if gs.round = 0 then 1 else gs.round) + 1) ri) := by
    simp only [nextRound, hfind, hhost, Bool.not_true, Bool.false_eq_true, if_false, hgs,
      hstat]
  refine ⟨?_, ?_, ?_⟩
  · intro hge
    rw [hred, if_pos hge]
  · intro hlt
    rw [hred, if_neg (by omega)]
    refine ⟨{ gs with status := .categorySelection,
                      round := (if gs.round = 0 then 1 else gs.round) + 1,
                      categorySelector := (if lowestScorePlayer gs.scores = "" ∧ r.players.length > 0 then (r.players.getD ri default).id else lowestScorePlayer gs.scores),
                      categories := ((gs.roundHistory.filterMap id).map (fun h => h.category) |> (fun usedCategories => (allCategories.filter (fun c => !usedCategories.contains (some c))) |> (fun avail0 => if avail0 = [] then allCategories else avail0))),
                      answers := [] }, ?_, rfl, rfl, rfl, rfl, ?_, ?_⟩
    · simp only [startNextRound, hgs]
    · intro hlsp
      have hsel : (if lowestScorePlayer gs.scores = "" ∧ r.players.length > 0
          then (r.players.getD ri default).id else lowestScorePlayer gs.scores) =
          lowestScorePlayer gs.scores := by
        rw [if_neg]
        intro hc
        exact hlsp hc.1
      refine ⟨hsel, ?_⟩
      intro hsne
      rcases lowestScorePlayer_mem gs.scores hsne with ⟨v, hv, hall⟩
      refine ⟨v, ?_, hall⟩
      show ((if lowestScorePlayer gs.scores = "" ∧ r.players.length > 0
          then (r.players.getD ri default).id else lowestScorePlayer gs.scores), v) ∈ gs.scores
      rw [hsel]
      exact hv
    · intro hlsp hplen h
      show (if lowestScorePlayer gs.scores = "" ∧ r.players.length > 0
          then (r.players.getD ri default).id else lowestScorePlayer gs.scores) = _
      rw [if_pos ⟨hlsp, hplen⟩]
      rw [List.getD_eq_get?, List.get?_eq_get h]
      rfl
  · intro pj rj rij rr hok
    rcases hf : rj.players.find? (fun p => p.id = pj.playerId) with _ | hpj
    · simp [nextRound, hf] at hok
    · rcases hb : hpj.isHost with _ | _
      · simp [nextRound, hf, hb] at hok
      · rcases hgj : rj.gameState with _ | gsj
        · simp [nextRound, hf, hb, hgj] at hok
        · by_cases hsj : gsj.status = GStatus.results
          · exact ⟨hpj, hf, hb, gsj, rfl, hsj⟩
          · simp [nextRound, hf, hb, hgj, hsj] at hok

/-- Witness for the amended C4: concrete host call in `results` with round
1 of 5; the next round starts with the deterministic lowest-score selector. -/
theorem nextRound_spec_witness :
    ∃ gs', nextRound (some ⟨"A", "1234", "Alice"⟩) (some cexRoomC4) 0 =
        some { cexRoomC4 with currentRound := 2, gameState := some gs' } ∧
      gs'.status = GStatus.categorySelection ∧ gs'.round = 2 ∧
      gs'.answers = [] ∧ gs'.categories = allCategories ∧
      gs'.categorySelector = lowestScorePlayer cexGsC4.scores := by
  rcases (nextRound_spec ⟨"A", "1234", "Alice"⟩ cexRoomC4 cexGsC4
      { id := "A", nickname := "Alice", isHost := true, isConnected := true } 0
      rfl (by decide) rfl rfl).2.1 (by decide) with
    ⟨gs', heq, h1, h2, h3, h4, h5, _⟩
  exact ⟨gs', heq, h1, h2, h3, h4, (h5 (by decide)).1⟩

/-- C8: a room that transitions to zero players is never deleted
immediately: the leave handler stores the emptied room, arms the deletion
timer and broadcasts the non-destructive `roomInactive` notice; a
successful (re)join cancels the armed timer; the fired timer deletes the
room only when it is still empty and keeps it when players are present. -/
theorem deletionScheduler_spec :
    (∀ pi s r', leaveRoom pi s.room = .ok (r', true) →
      (leaveRoomServer pi s).room = some r' ∧
      (leaveRoomServer pi s).pendingDeletion = true ∧
      "roomInactive" ∈ (leaveRoomServer pi s).events) ∧
    (∀ nick pid fresh s r', joinRoom s.room nick pid fresh = .ok r' →
      (joinRoomServer nick pid fresh s).pendingDeletion = false ∧
      (joinRoomServer nick pid fresh s).room = some r') ∧
    (∀ s r, s.room = some r → r.players ≠ [] →
      (deletionTimerFire s).room = some r) ∧
    (∀ s r, s.room = some r → r.players = [] →
      (deletionTimerFire s).room = none ∧
      (deletionTimerFire s).pendingDeletion = false) := by
  refine ⟨?_, ?_, ?_, ?_⟩
  · intro pi s r' h
    unfold leaveRoomServer
    rw [h]
    simp [scheduleRoomDeletion]
  · intro nick pid fresh s r' h
    unfold joinRoomServer
    rw [h]
    exact ⟨rfl, rfl⟩
  · intro s r hr hne
    simp only [deletionTimerFire, hr]
    rw [if_neg (by simpa [List.length_eq_zero] using hne)]
  · intro s r hr hnil
    simp only [deletionTimerFire, hr]
    rw [if_pos (by simp [hnil])]
    exact ⟨rfl, rfl⟩

/-- Fixtures for the C8 witness: a one-player room whose player leaves, and
the emptied room. -/
def wRoomC8 : Room :=
  { code := "1234", status := .waiting,
    players := [{ id := "A", nickname := "Alice", isHost := true, isConnected := true }],
    currentRound := 0, gameState := none }

def wStateC8 : ServerState :=
  { room := some wRoomC8, pendingDeletion := false, events := [] }

def wEmptyRoomC8 : Room :=
  { code := "1234", status := .waiting, players := [], currentRound := 0,
    gameState := none }

/-- Witness for C8: the last player leaves, the room survives with an armed
timer and `roomInactive` notice; a later fire on the still-empty room
deletes it; a fire on a repopulated room keeps it. -/
theorem deletionScheduler_spec_witness :
    ((leaveRoomServer (some ⟨"A", "1234", "Alice"⟩) wStateC8).room = some wEmptyRoomC8 ∧
     (leaveRoomServer (some ⟨"A", "1234", "Alice"⟩) wStateC8).pendingDeletion = true ∧
     "roomInactive" ∈ (leaveRoomServer (some ⟨"A", "1234", "Alice"⟩) wStateC8).events) ∧
    ((deletionTimerFire { room := some wEmptyRoomC8, pendingDeletion := true, events := [] }).room = none ∧
     (deletionTimerFire { room := some wEmptyRoomC8, pendingDeletion := true, events := [] }).pendingDeletion = false) ∧
    (deletionTimerFire wStateC8).room = some wRoomC8 :=
  ⟨deletionScheduler_spec.1 (some ⟨"A", "1234", "Alice"⟩) wStateC8 wEmptyRoomC8 rfl,
   deletionScheduler_spec.2.2.2 { room := some wEmptyRoomC8, pendingDeletion := true, events := [] } wEmptyRoomC8 rfl rfl,
   deletionScheduler_spec.2.2.1 wStateC8 wRoomC8 rfl (by decide)⟩

/-- Auxiliary: reading back the slot just written by `setIdx`. -/
theorem getIdx_setIdx_self {α : Type} (l : List (Option α)) (i : Nat) (v : α) :
    getIdx (setIdx l i v) i = some v := by
  induction i generalizing l with
  | zero => cases l <;> rfl
  | succ n ih =>
    cases l with
    | nil => exact ih []
    | cons a t => exact ih t

/-- Auxiliary: `setIdx` leaves every other slot as it was. -/
theorem getIdx_setIdx_ne {α : Type} (l : List (Option α)) (i j : Nat) (v : α)
    (hne : j ≠ i) : getIdx (setIdx l i v) j = getIdx l j := by
  induction i generalizing l j with
  | zero =>
    cases l with
    | nil =>
      cases j with
      | zero => exact absurd rfl hne
      | succ m => rfl
    | cons a t =>
      cases j with
      | zero => exact absurd rfl hne
      | succ m => rfl
  | succ n ih =>
    cases l with
    | nil =>
      cases j with
      | zero => rfl
      | succ m => exact ih [] m (fun h => hne (by rw [h]))
    | cons a t =>
      cases j with
      | zero => rfl
      | succ m => exact ih t m (fun h => hne (by rw [h]))

/-- Auxiliary: looking up the key just written by `alistSet`. -/
theorem alistLookup_alistSet_self {α : Type} (l : List (String × α))
    (k : String) (v : α) : alistLookup (alistSet l k v) k = some v := by
  induction l with
  | nil => simp [alistSet, alistLookup]
  | cons a t ih =>
    rcases a with ⟨k', v'⟩
    by_cases h : k' = k <;> simp [alistSet, alistLookup, h, ih]

/-- Fixture for C1: a room whose phase is ALREADY `judging` — the state a
losing racer observes after the other caller moved the room to `judging` —
with two answers recorded. -/
def cexGsC1 : GameState :=
  { status := .judging, round := 1, totalRounds := 5, categorySelector := "A",
    categories := allCategories, currentCategory := some .scenario,
    question := some "Q", judgingStyle := some "humor", timeRemaining := some 0,
    answers := [("A", "x"), ("B", "y")], scores := [("A", 0), ("B", 0)],
    judgingResult := none, roundHistory := [] }

def cexRoomC1 : Room :=
  { code := "1234", status := .playing,
    players := [{ id := "A", nickname := "Alice", isHost := true, isConnected := true },
                { id := "B", nickname := "Bob", isHost := false, isConnected := true }],
    currentRound := 1, gameState := some cexGsC1 }

/-- C1: the code contradicts the claimed guard.  `judgeAnswers` issues an
UNCONDITIONAL `$set` of the phase (the update filter carries no expected
phase) and nothing in the function aborts based on the phase it read, so a
caller that enters while the room is ALREADY `judging` still runs the whole
pass and consults the external Judge, instead of being the silent no-op the
claim describes; two racing callers would both invoke the Judge. -/
theorem judgeAnswers_no_check_and_set :
    cexGsC1.status = GStatus.judging ∧
    (judgeAnswers (some cexRoomC1) true
        (some { winners := ["A"], explanation := "e" }) ⟨false, [], 0, 0⟩ 0).ranJudgingPass = true ∧
    (judgeAnswers (some cexRoomC1) true
        (some { winners := ["A"], explanation := "e" }) ⟨false, [], 0, 0⟩ 0).consultedExternalJudge = true := by
  exact ⟨rfl, rfl, rfl⟩

/-- Fixture for the C2 counterexample: the entry pre-seeded by the
full-coverage `submitAnswer` path (question/category/answers only). -/
def preSeedC2 : RoundHistoryItem :=
  { round := none, category := some .scenario, question := some "Q",
    answers := [("A", "x"), ("B", "y")], winners := none, explanation := none }

def cexGsC2 : GameState :=
  { status := .judging, round := 1, totalRounds := 5, categorySelector := "A",
    categories := allCategories, currentCategory := some .scenario,
    question := some "Q", judgingStyle := some "humor", timeRemaining := some 0,
    answers := [("A", "x"), ("B", "y")], scores := [("A", 0), ("B", 0)],
    judgingResult := none, roundHistory := [some preSeedC2] }

def cexRoomC2 : Room :=
  { code := "1234", status := .playing,
    players := [{ id := "A", nickname := "Alice", isHost := true, isConnected := true },
                { id := "B", nickname := "Bob", isHost := false, isConnected := true }],
    currentRound := 1, gameState := some cexGsC2 }

/-- C2 as stated fails on the code: `judgeAnswers` inserts the round-history
entry ONLY when the slot is empty (`if (!roundHistory[currentRound - 1])`)
and never overwrites, so after the judging pass completes on a round whose
entry was pre-seeded by the full-coverage path, that entry still records no
winners and no explanation, although the Judge returned a winner. -/
theorem judgeAnswers_preseed_cex :
    ∃ r' gs', (judgeAnswers (some cexRoomC2) true
        (some { winners := ["A"], explanation := "good" }) ⟨false, [], 0, 0⟩ 0).room = some r' ∧
      r'.gameState = some gs' ∧ gs'.status = GStatus.results ∧
      gs'.judgingResult = some { winners := ["A"], explanation := "good" } ∧
      getIdx gs'.roundHistory 0 = some preSeedC2 ∧
      preSeedC2.winners = none ∧ preSeedC2.explanation = none := by
  exact ⟨_, _, rfl, rfl, rfl, rfl, rfl, rfl, rfl⟩

/-- C2 amended: after a judging pass, the round's slot in `roundHistory`
holds exactly one entry, inserted exactly once: a slot pre-seeded by the
full-coverage path is left untouched (and therefore keeps NO winners or
explanation), while an empty slot receives the full record with winners and
explanation; all other slots are unchanged. -/
theorem judgeAnswers_roundHistory_spec (r : Room) (gs : GameState)
    (hgs : r.gameState = some gs) (aiEnabled : Bool)
    (apiResult : Option AIJudgingResult) (d : RandomDraws) (sp : Nat) :
    ∃ r' gs', (judgeAnswers (some r) aiEnabled apiResult d sp).room = some r' ∧
      r'.gameState = some gs' ∧
      (getIdx gs'.roundHistory (gs.round - 1)).isSome = true ∧
      (∀ e, getIdx gs.roundHistory (gs.round - 1) = some e →
        gs'.roundHistory = gs.roundHistory) ∧
      (getIdx gs.roundHistory (gs.round - 1) = none →
        ∃ item, getIdx gs'.roundHistory (gs.round - 1) = some item ∧
          item.winners.isSome = true ∧ item.explanation.isSome = true ∧
          item.round = some gs.round ∧ item.answers = gs.answers) ∧
      (∀ j, j ≠ gs.round - 1 → getIdx gs'.roundHistory j = getIdx gs.roundHistory j) := by
  have heq : (judgeAnswers (some r) aiEnabled apiResult d sp).room =
      some { r with gameState := some (judgedGameState gs aiEnabled apiResult d sp) } := by
    simp only [judgeAnswers, hgs]
  have hhist : (judgedGameState gs aiEnabled apiResult d sp).roundHistory =
      insertHistory gs (serverFallback gs.answers
        (aiJudgeAnswers gs.answers aiEnabled apiResult d).1 sp) := rfl
  set jres := serverFallback gs.answers
    (aiJudgeAnswers gs.answers aiEnabled apiResult d).1 sp with hjres
  refine ⟨_, judgedGameState gs aiEnabled apiResult d sp, heq, rfl, ?_, ?_, ?_, ?_⟩
  · show (getIdx (insertHistory gs jres) (gs.round - 1)).isSome = true
    unfold insertHistory
    rcases hpre : getIdx gs.roundHistory (gs.round - 1) with _ | e
    · rw [if_pos rfl, getIdx_setIdx_self]
      rfl
    · rw [if_neg (by simp [hpre]), hpre]
      rfl
  · intro e he
    show insertHistory gs jres = gs.roundHistory
    unfold insertHistory
    rw [if_neg (by simp [he])]
  · intro hnone
    show ∃ item, getIdx (insertHistory gs jres) (gs.round - 1) = some item ∧ _
    unfold insertHistory
    rw [if_pos hnone]
    refine ⟨{ round := some gs.round, category := gs.currentCategory,
              question := some (gs.question.getD ""), answers := gs.answers,
              winners := some jres.winners,
              explanation := some jres.explanation }, ?_, rfl, rfl, rfl, rfl⟩
    rw [getIdx_setIdx_self]
  · intro j hj
    show getIdx (insertHistory gs jres) j = getIdx gs.roundHistory j
    unfold insertHistory
    rcases hpre : getIdx gs.roundHistory (gs.round - 1) with _ | e
    · rw [if_pos rfl]
      exact getIdx_setIdx_ne _ _ _ _ hj
    · rw [if_neg (by simp [hpre])]

/-- Witness for the amended C2 at the concrete pre-seeded room: the slot is
occupied after the pass and the pre-seeded history is left untouched. -/
theorem judgeAnswers_roundHistory_spec_witness :
    ∃ r' gs', (judgeAnswers (some cexRoomC2) true
        (some { winners := ["A"], explanation := "good" }) ⟨false, [], 0, 0⟩ 0).room = some r' ∧
      r'.gameState = some gs' ∧
      (getIdx gs'.roundHistory 0).isSome = true ∧
      gs'.roundHistory = cexGsC2.roundHistory := by
  rcases judgeAnswers_roundHistory_spec cexRoomC2 cexGsC2 rfl true
      (some { winners := ["A"], explanation := "good" }) ⟨false, [], 0, 0⟩ 0 with
    ⟨r', gs', h1, h2, h3, h4, _, _⟩
  exact ⟨r', gs', h1, h2, h3, h4 preSeedC2 rfl⟩

/-- C10: a judging pass whose answers map holds exactly one entry returns
that sole respondent as the unique winner WITHOUT consulting the external
Judge, and awards them 3 points, so a round with exactly one answer never
ends with zero winners. -/
theorem singleAnswer_autowin (r : Room) (gs : GameState) (p t : String)
    (hgs : r.gameState = some gs) (hans : gs.answers = [(p, t)])
    (aiEnabled : Bool) (apiResult : Option AIJudgingResult)
    (d : RandomDraws) (sp : Nat) :
    (judgeAnswers (some r) aiEnabled apiResult d sp).consultedExternalJudge = false ∧
    ∃ r' gs', (judgeAnswers (some r) aiEnabled apiResult d sp).room = some r' ∧
      r'.gameState = some gs' ∧
      ∃ jr, gs'.judgingResult = some jr ∧ jr.winners = [p] ∧
        alistLookup gs'.scores p = some ((alistLookup gs.scores p).getD 0 + 3) := by
  have hai : aiJudgeAnswers gs.answers aiEnabled apiResult d =
      ({ winners := [p], explanation :=
          t ++ " was the only answer submitted and wins by default." }, false) := by
    rw [hans]
    simp [aiJudgeAnswers, alistLookup]
  have hfb : serverFallback gs.answers
      (aiJudgeAnswers gs.answers aiEnabled apiResult d).1 sp =
      { winners := [p], explanation :=
          t ++ " was the only answer submitted and wins by default." } := by
    rw [hai]
    simp [serverFallback]
  constructor
  · show (judgeAnswers (some r) aiEnabled apiResult d sp).consultedExternalJudge = false
    simp only [judgeAnswers, hgs, hai]
  · refine ⟨{ r with gameState := some (judgedGameState gs aiEnabled apiResult d sp) },
      judgedGameState gs aiEnabled apiResult d sp, ?_, rfl, ?_⟩
    · simp only [judgeAnswers, hgs]
    · refine ⟨serverFallback gs.answers
        (aiJudgeAnswers gs.answers aiEnabled apiResult d).1 sp, rfl, ?_, ?_⟩
      · rw [hfb]
      · show alistLookup (applyScores gs.scores (serverFallback gs.answers
            (aiJudgeAnswers gs.answers aiEnabled apiResult d).1 sp).winners) p = _
        rw [hfb]
        show alistLookup
            (alistSet gs.scores p ((alistLookup gs.scores p).getD 0 + 3)) p = _
        rw [alistLookup_alistSet_self]

/-- Fixture for the C10 witness: a round with exactly one recorded answer. -/
def wGsC10 : GameState :=
  { status := .judging, round := 1, totalRounds := 5, categorySelector := "A",
    categories := allCategories, currentCategory := some .scenario,
    question := some "Q", judgingStyle := some "humor", timeRemaining := some 0,
    answers := [("A", "solo")], scores := [("A", 0), ("B", 0)],
    judgingResult := none, roundHistory := [] }

def wRoomC10 : Room :=
  { code := "1234", status := .playing,
    players := [{ id := "A", nickname := "Alice", isHost := true, isConnected := true },
                { id := "B", nickname := "Bob", isHost := false, isConnected := false }],
    currentRound := 1, gameState := some wGsC10 }

/-- Witness for C10: even with AI judging enabled and the API failing
(`none`), the sole respondent "A" wins without any external call and gets 3
points. -/
theorem singleAnswer_autowin_witness :
    (judgeAnswers (some wRoomC10) true none ⟨false, [], 0, 0⟩ 0).consultedExternalJudge = false ∧
    ∃ r' gs', (judgeAnswers (some wRoomC10) true none ⟨false, [], 0, 0⟩ 0).room = some r' ∧
      r'.gameState = some gs' ∧
      ∃ jr, gs'.judgingResult = some jr ∧ jr.winners = ["A"] ∧
        alistLookup gs'.scores "A" = some ((alistLookup wGsC10.scores "A").getD 0 + 3) :=
  singleAnswer_autowin wRoomC10 wGsC10 "A" "solo" rfl rfl true none ⟨false, [], 0, 0⟩ 0

end WWYD
